import Mathlib

/-!
neo3crypto: the ECPoint layer of `ecc.h` / `ecc.cpp`

A shallow embedding of `neo3crypto::ECPoint` (construction from public-key
bytes, construction from a private key, `from_bytes`, `encode_point`,
`compare_to` and the comparison operators), of the free functions `sign`
and `verify`, and of the `__deepcopy__` binding of `python-bindings.cpp`,
together with the properties of the specification that concern them.

Conventions of the embedding:

* `std::vector<unsigned char>` is `List Byte` with `Byte = Fin 256`.
* The micro-ecc library (`microecc/uECC.h`) is not part of the sources; a
  curve handle `uECC_Curve` is a record of the functions the code calls and
  is a parameter of every definition that reaches the library.
* A member function that can throw returns a `Run`: the outcome together
  with the list of library calls made, in order.  `from_bytes`, which mutates
  its receiver, also returns the receiver as it is left behind.
-/

namespace neo3crypto

/-- An `unsigned char`. -/
abbrev Byte := Fin 256

/-- The class `ECCException` of `ecc.h`: an exception carrying a message. -/
structure ECCException where
  message : String
deriving DecidableEq, Repr

/-- The ways a call can end other than by returning: an `ECCException` is
thrown, or a `std::copy` runs past the end of its destination vector
(undefined behaviour in C++, kept apart from every defined outcome). -/
inductive Fault where
  | exception (e : ECCException)
  | out_of_bounds
deriving DecidableEq, Repr

/-- The enumeration `ECCCURVE` of `ecc.h`. -/
inductive ECCCURVE where
  | secp256r1
  | secp256k1
deriving DecidableEq, Repr

/-- Modelled from the spec: the curve handle of micro-ecc (`uECC_Curve`, from
`microecc/uECC.h`, which is not among the sources), as the record of the
operations the spec lists for a backend handle.  Each function that fills an
output buffer in C is given here as the function from its input bytes to the
bytes it writes; `compute_public_key` is `none` when the library reports
failure (returns 0); `sign` takes the private key and the message hash,
`verify` the public key, the message hash and the signature. -/
structure uECC_Curve where
  private_key_size : Nat
  decompress : List Byte → List Byte
  compress : List Byte → List Byte
  valid_public_key : List Byte → Bool
  compute_public_key : List Byte → Option (List Byte)
  sign : List Byte → List Byte → List Byte
  verify : List Byte → List Byte → List Byte → Bool

/-- One call into micro-ecc, with the input bytes it was given. -/
inductive uECC_Call where
  | decompress (compressed : List Byte)
  | compress (public_key : List Byte)
  | valid_public_key (public_key : List Byte)
  | compute_public_key (private_key : List Byte)
  | sign (private_key message_hash : List Byte)
  | verify (public_key message_hash signature : List Byte)
deriving DecidableEq, Repr

deriving instance DecidableEq for Except

/-- The result of running a member function: how it ended, and the library
calls it made on the way. -/
structure Run (α : Type) where
  outcome : Except Fault α
  calls : List uECC_Call

/-- The function `get_uecc_curve` of `ecc.cpp`: the handle of a curve.  The
`default:` branch of the C++ switch (which throws "Unsupported curve") is
taken by no enumerator of `ECCCURVE`. -/
def get_uecc_curve (uECC_secp256r1 uECC_secp256k1 : uECC_Curve) (curve : ECCCURVE) : uECC_Curve :=
  match curve with
  | ECCCURVE.secp256r1 => uECC_secp256r1
  | ECCCURVE.secp256k1 => uECC_secp256k1

/-- The two curve handles of the library, `uECC_secp256r1()` and
`uECC_secp256k1()`. -/
structure Backend where
  uECC_secp256r1 : uECC_Curve
  uECC_secp256k1 : uECC_Curve

/-- The handle `get_uecc_curve(curve)` for a given library. -/
def Backend.curve (B : Backend) (curve : ECCCURVE) : uECC_Curve :=
  get_uecc_curve B.uECC_secp256r1 B.uECC_secp256k1 curve

/-- The effect of `std::copy(src.begin(), src.end(), dst.begin() + offset)`
when the destination has room: the bytes of `dst` from `offset` on are
replaced by `src`, the rest of `dst` is kept. -/
def std_copy (src dst : List Byte) (offset : Nat) : List Byte :=
  dst.take offset ++ src ++ dst.drop (offset + src.length)

/-- A library function writing `out` through the pointer `buf.data()`: the
vector keeps its size, its leading bytes become `out`.  (The library is
trusted to stay inside the buffer; bytes beyond its size are not kept.) -/
def uECC_write (buf out : List Byte) : List Byte :=
  std_copy (out.take buf.length) buf 0

/-- The class `ECPoint` of `ecc.h`, with its default member initialisers. -/
structure ECPoint where
  value : List Byte := []
  value_compressed : List Byte := []
  curve : ECCCURVE := ECCCURVE.secp256r1
  _is_infinity : Bool := false
deriving DecidableEq, Repr

/-- The standard algorithm `std::lexicographical_compare` on two byte ranges,
as its reference implementation runs: walk both ranges while both have
elements, answer at the first position where they differ, and otherwise
answer whether the first range ended and the second did not. -/
def lexicographical_compare : List Byte → List Byte → Bool
  | [], [] => false
  | [], _ :: _ => true
  | _ :: _, [] => false
  | a :: as, b :: bs =>
    if a < b then true
    else if b < a then false
    else lexicographical_compare as bs

/-- The member `ECPoint::compare_to` of `ecc.cpp`.  Both X ranges are
`[begin, begin + half)` and both Y ranges `[begin + half, end)`, with `half`
taken from the receiver; the ranges over `other` are the ones the iterators
denote when `other.value` has at least `half` elements. -/
def ECPoint.compare_to (self other : ECPoint) : Int :=
  let half := self.value.length / 2
  let x_smaller := lexicographical_compare (self.value.take half) (other.value.take half)
  if x_smaller then -1
  else
    let x_bigger := lexicographical_compare (other.value.take half) (self.value.take half)
    if x_bigger then 1
    else
      let y_smaller := lexicographical_compare (self.value.drop half) (other.value.drop half)
      if y_smaller then -1
      else
        let y_bigger := lexicographical_compare (other.value.drop half) (self.value.drop half)
        if y_bigger then 1
        else 0

/-- The friend `operator<` of `ecc.h`. -/
def ECPoint.lt (lhs rhs : ECPoint) : Bool := decide (lhs.compare_to rhs < 0)

/-- The friend `operator>` of `ecc.h`. -/
def ECPoint.gt (lhs rhs : ECPoint) : Bool := ECPoint.lt rhs lhs

/-- The friend `operator<=` of `ecc.h`. -/
def ECPoint.le (lhs rhs : ECPoint) : Bool := !(ECPoint.gt lhs rhs)

/-- The friend `operator>=` of `ecc.h`. -/
def ECPoint.ge (lhs rhs : ECPoint) : Bool := !(ECPoint.lt lhs rhs)

/-- The friend `operator==` of `ecc.h`. -/
def ECPoint.eq (lhs rhs : ECPoint) : Bool := decide (lhs.compare_to rhs = 0)

/-- The friend `operator!=` of `ecc.h`. -/
def ECPoint.ne (lhs rhs : ECPoint) : Bool := decide (lhs.compare_to rhs ≠ 0)

/-- The member `ECPoint::is_infinity` of `ecc.h`. -/
def ECPoint.is_infinity (self : ECPoint) : Bool := self._is_infinity

/-- The constructor `ECPoint::ECPoint(public_key, curve_, validate)` of
`ecc.cpp`.  The members start from their default initialisers with
`curve{curve_}`; `public_key[0]` is read only once the key is known to be
non-empty. -/
def ECPoint.ECPoint_public_key (B : Backend) (public_key : List Byte) (curve_ : ECCCURVE)
    (validate : Bool) : Run ECPoint :=
  let self : ECPoint := { curve := curve_ }
  if public_key.isEmpty then
    ⟨.error (.exception ⟨"Public key has no data"⟩), []⟩
  else
    let internal_curve := B.curve curve_
    let curve_size := internal_curve.private_key_size
    let self := { self with value := List.replicate (curve_size * 2) 0 }
    if public_key.length = 1 ∧ public_key.headD 0 = 0 then
      ⟨.ok { self with
              _is_infinity := true,
              value_compressed := List.replicate (curve_size * 2) 0 }, []⟩
    else
      let parsed : Except Fault (ECPoint × List uECC_Call) :=
        if public_key.headD 0 = 0x2 ∨ public_key.headD 0 = 0x3 then
          if public_key.length ≠ curve_size + 1 then
            .error (.exception ⟨"Incorrect public key length for specified curve."⟩)
          else
            let self := { self with value_compressed := public_key }
            .ok ({ self with
                    value := uECC_write self.value
                      (internal_curve.decompress self.value_compressed) },
                 [uECC_Call.decompress self.value_compressed])
        else if public_key.headD 0 = 0x4 then
          -- key is in uncompressed format, store it without the prefix
          if public_key.length - 1 ≤ self.value.length then
            let self := { self with value := std_copy (public_key.drop 1) self.value 0 }
            let self := { self with value_compressed := List.replicate (curve_size + 1) 0 }
            .ok ({ self with
                    value_compressed := uECC_write self.value_compressed
                      (internal_curve.compress self.value) },
                 [uECC_Call.compress self.value])
          else
            .error .out_of_bounds
        else
          .ok (self, [])
      match parsed with
      | .error fault => ⟨.error fault, []⟩
      | .ok (self, calls) =>
        if validate then
          if !internal_curve.valid_public_key self.value then
            ⟨.error (.exception ⟨"Failed public key validation"⟩),
              calls ++ [uECC_Call.valid_public_key self.value]⟩
          else
            ⟨.ok self, calls ++ [uECC_Call.valid_public_key self.value]⟩
        else
          ⟨.ok self, calls⟩

/-- The constructor `ECPoint::ECPoint(private_key, curve_)` of `ecc.cpp`. -/
def ECPoint.ECPoint_private_key (B : Backend) (private_key : List Byte)
    (curve_ : ECCCURVE) : Run ECPoint :=
  let self : ECPoint := { curve := curve_ }
  let internal_curve := B.curve self.curve
  let curve_size := internal_curve.private_key_size
  if curve_size ≠ private_key.length then
    ⟨.error (.exception ⟨"Incorrect private key length for specified curve"⟩), []⟩
  else
    let self := { self with value := List.replicate (curve_size * 2) 0 }
    match internal_curve.compute_public_key private_key with
    | none =>
      ⟨.error (.exception ⟨"Failed public key computation"⟩),
        [uECC_Call.compute_public_key private_key]⟩
    | some out =>
      let self := { self with value := uECC_write self.value out }
      let self := { self with value_compressed := List.replicate (curve_size + 1) 0 }
      let self := { self with
        value_compressed := uECC_write self.value_compressed
          (internal_curve.compress self.value) }
      ⟨.ok self, [uECC_Call.compute_public_key private_key, uECC_Call.compress self.value]⟩

/-- The member `ECPoint::encode_point` of `ecc.cpp`.  It is not declared
`const`, so the receiver is returned next to the encoded bytes; the local
vector `uncompressed` is built as in the source: allocated with
`value.size() + 1` zero bytes, its first byte set, the rest copied in. -/
def ECPoint.encode_point (self : ECPoint) (compressed : Bool) : List Byte × ECPoint :=
  if self._is_infinity then
    (List.replicate 1 0, self)
  else if compressed then
    (self.value_compressed, self)
  else
    let uncompressed : List Byte := List.replicate (self.value.length + 1) 0
    let uncompressed := uncompressed.set 0 0x4
    let uncompressed := std_copy self.value uncompressed 1
    (uncompressed, self)

/-- The member `ECPoint::from_bytes` of `ecc.cpp`, run on the receiver
`self`: the receiver as the call leaves it (also when it throws), and the
run.  The member `curve` is not assigned. -/
def ECPoint.from_bytes (B : Backend) (self : ECPoint) (public_key : List Byte)
    (curve_ : ECCCURVE) (validate : Bool) : ECPoint × Run Unit :=
  if public_key.isEmpty then
    (self, ⟨.error (.exception ⟨"Public key has no data"⟩), []⟩)
  else
    let internal_curve := B.curve curve_
    let curve_size := internal_curve.private_key_size
    let self := { self with value := List.replicate (curve_size * 2) 0 }
    if public_key.length = 1 ∧ public_key.headD 0 = 0 then
      ({ self with
          _is_infinity := true,
          value_compressed := List.replicate (curve_size * 2) 0 }, ⟨.ok (), []⟩)
    else
      let self := { self with _is_infinity := false }
      let parsed : ECPoint × Except Fault (List uECC_Call) :=
        if public_key.headD 0 = 0x2 ∨ public_key.headD 0 = 0x3 then
          if public_key.length ≠ curve_size + 1 then
            (self, .error (.exception ⟨"Incorrect public key length for specified curve."⟩))
          else
            let self := { self with value_compressed := public_key }
            ({ self with
                value := uECC_write self.value
                  (internal_curve.decompress self.value_compressed) },
             .ok [uECC_Call.decompress self.value_compressed])
        else if public_key.headD 0 = 0x4 then
          -- key is in uncompressed format, store it without the prefix
          if public_key.length - 1 ≤ self.value.length then
            let self := { self with value := std_copy (public_key.drop 1) self.value 0 }
            let self := { self with value_compressed := List.replicate (curve_size + 1) 0 }
            ({ self with
                value_compressed := uECC_write self.value_compressed
                  (internal_curve.compress self.value) },
             .ok [uECC_Call.compress self.value])
          else
            (self, .error .out_of_bounds)
        else
          (self, .ok [])
      match parsed with
      | (self, .error fault) => (self, ⟨.error fault, []⟩)
      | (self, .ok calls) =>
        if validate then
          if !internal_curve.valid_public_key self.value then
            (self, ⟨.error (.exception ⟨"Failed public key validation"⟩),
              calls ++ [uECC_Call.valid_public_key self.value]⟩)
          else
            (self, ⟨.ok (), calls ++ [uECC_Call.valid_public_key self.value]⟩)
        else
          (self, ⟨.ok (), calls⟩)

/-- The free function `sign` of `ecc.cpp`.  The value `uECC_sign` returns is
not looked at; the vector returned is the zero-filled `signature` as the
library call leaves it. -/
def sign (B : Backend) (private_key message_hash : List Byte) (curve : ECCCURVE) :
    Run (List Byte) :=
  let internal_curve := B.curve curve
  let curve_size := internal_curve.private_key_size
  if private_key.length ≠ curve_size then
    ⟨.error (.exception ⟨"Incorrect private key length for specified curve."⟩), []⟩
  else
    let signature : List Byte := List.replicate (curve_size * 2) 0
    let signature := uECC_write signature (internal_curve.sign private_key message_hash)
    ⟨.ok signature, [uECC_Call.sign private_key message_hash]⟩

/-- The free function `verify` of `ecc.cpp`.  The library is handed
`public_key.value.data()`, the message hash with its size, and the
signature; its `int` result is cast to `bool`. -/
def verify (B : Backend) (signature message_hash : List Byte) (public_key : ECPoint) :
    Run Bool :=
  let internal_curve := B.curve public_key.curve
  let curve_size := internal_curve.private_key_size
  if signature.length ≠ curve_size * 2 then
    ⟨.error (.exception ⟨"Incorrect signature length for specified curve."⟩), []⟩
  else
    let result := internal_curve.verify public_key.value message_hash signature
    ⟨.ok result, [uECC_Call.verify public_key.value message_hash signature]⟩

/-- The binding `__deepcopy__` of `python-bindings.cpp`: the point rebuilt as
`ECPoint(self.value_compressed, self.curve, false)`; `memodict` is not
used. -/
def ECPoint.__deepcopy__ (B : Backend) (self : ECPoint) : Run ECPoint :=
  ECPoint.ECPoint_public_key B self.value_compressed self.curve false

/-- The independent comparison of the specification: a plain byte-wise
lexicographic three-way comparison of two whole buffers, unsigned bytes,
giving -1, 0 or 1. -/
def bytewise_compare : List Byte → List Byte → Int
  | [], [] => 0
  | [], _ :: _ => -1
  | _ :: _, [] => 1
  | a :: as, b :: bs =>
    if a.val < b.val then -1
    else if b.val < a.val then 1
    else bytewise_compare as bs

/-! ## Test doubles used to instantiate the theorems -/

/-- A stand-in curve handle with the 32-byte size of both curves: a "point"
is valid when its Y half repeats its X half, the public key of a non-zero
private key `k` is `k ‖ k`. -/
def toy_curve : uECC_Curve where
  private_key_size := 32
  decompress := fun compressed => compressed.drop 1 ++ compressed.drop 1
  compress := fun public_key => 2 :: public_key.take 32
  valid_public_key := fun public_key => public_key.take 32 == public_key.drop 32
  compute_public_key := fun private_key =>
    if private_key.all (fun b => b == 0) then none else some (private_key ++ private_key)
  sign := fun private_key message_hash => private_key ++ message_hash.take 32
  verify := fun public_key message_hash signature =>
    signature == public_key.take 32 ++ message_hash.take 32

/-- The library made of the stand-in handle for both curves. -/
def toy_backend : Backend := ⟨toy_curve, toy_curve⟩

/-- A sample point with X = 0 and Y = 1. -/
def sample_point_a : ECPoint :=
  { value := List.replicate 63 0 ++ [1], value_compressed := 3 :: List.replicate 32 0 }

/-- A sample point with X = 1 and Y = 0. -/
def sample_point_b : ECPoint :=
  { value := List.replicate 31 0 ++ [1] ++ List.replicate 32 0,
    value_compressed := 2 :: (List.replicate 31 0 ++ [1]) }

/-- A sample point with X = 1 and Y = 2. -/
def sample_point_c : ECPoint :=
  { value := List.replicate 31 0 ++ [1] ++ List.replicate 31 0 ++ [2],
    value_compressed := 2 :: (List.replicate 31 0 ++ [1]) }

/-- The compressed wire form of the sample point with X = 1, as the stand-in
library decompresses it. -/
def sample_compressed_key : List Byte := 0x02 :: (List.replicate 31 0 ++ [1])

/-- The uncompressed wire form of the sample point with X = 1 and Y = 2. -/
def sample_uncompressed_key : List Byte :=
  0x04 :: (List.replicate 31 0 ++ [1] ++ List.replicate 31 0 ++ [2])

/-- The point the constructor holds after the `0x02`/`0x03` branch: the key
stored verbatim as `value_compressed`, `value` written by `decompress`. -/
def compressed_branch_point (B : Backend) (curve : ECCCURVE) (pk : List Byte) : ECPoint :=
  { value := uECC_write (List.replicate ((B.curve curve).private_key_size * 2) 0)
      ((B.curve curve).decompress pk),
    value_compressed := pk,
    curve := curve,
    _is_infinity := false }

/-- The point the constructor holds after the `0x04` branch when the copy
fits: the key without its first byte copied over the zero-filled `value`,
`value_compressed` written by `compress`. -/
def uncompressed_branch_point (B : Backend) (curve : ECCCURVE) (pk : List Byte) : ECPoint :=
  { value := std_copy (pk.drop 1)
      (List.replicate ((B.curve curve).private_key_size * 2) 0) 0,
    value_compressed := uECC_write (List.replicate ((B.curve curve).private_key_size + 1) 0)
      ((B.curve curve).compress (std_copy (pk.drop 1)
        (List.replicate ((B.curve curve).private_key_size * 2) 0) 0)),
    curve := curve,
    _is_infinity := false }

/-- The last step of the constructor and of `from_bytes`: the optional
validity check on the populated `value`, after the library calls `calls`. -/
def validation_step (B : Backend) (curve : ECCCURVE) (validate : Bool) (p : ECPoint)
    (calls : List uECC_Call) : Run ECPoint :=
  if validate then
    if (B.curve curve).valid_public_key p.value then
      ⟨.ok p, calls ++ [uECC_Call.valid_public_key p.value]⟩
    else
      ⟨.error (.exception ⟨"Failed public key validation"⟩),
        calls ++ [uECC_Call.valid_public_key p.value]⟩
  else
    ⟨.ok p, calls⟩

/-- The point the private-key constructor builds when the library derives
the public key bytes `out`: `value` written by `compute_public_key`,
`value_compressed` written by `compress`. -/
def derived_point (B : Backend) (curve : ECCCURVE) (out : List Byte) : ECPoint :=
  { value := uECC_write (List.replicate ((B.curve curve).private_key_size * 2) 0) out,
    value_compressed := uECC_write (List.replicate ((B.curve curve).private_key_size + 1) 0)
      ((B.curve curve).compress
        (uECC_write (List.replicate ((B.curve curve).private_key_size * 2) 0) out)),
    curve := curve,
    _is_infinity := false }

/-- A 32-byte private key, 0x01 repeated. -/
def sample_private_key : List Byte := List.replicate 32 1

/-! ## Lemmas on the two comparisons -/

theorem bytewise_compare_eq_ite (as bs : List Byte) :
    bytewise_compare as bs =
      if lexicographical_compare as bs then -1
      else if lexicographical_compare bs as then 1 else 0 := by
  induction as generalizing bs with
  | nil => cases bs <;> simp [bytewise_compare, lexicographical_compare]
  | cons a as ih =>
    cases bs with
    | nil => simp [bytewise_compare, lexicographical_compare]
    | cons b bs =>
      simp only [bytewise_compare, lexicographical_compare, Fin.lt_def]
      by_cases h1 : a.val < b.val
      · have h2 : ¬ b.val < a.val := by omega
        simp [h1, h2]
      · by_cases h2 : b.val < a.val
        · simp [h1, h2]
        · simp [h1, h2, ih bs]

theorem bytewise_compare_append (as bs cs ds : List Byte) (h : as.length = cs.length) :
    bytewise_compare (as ++ bs) (cs ++ ds) =
      if bytewise_compare as cs = 0 then bytewise_compare bs ds
      else bytewise_compare as cs := by
  induction as generalizing cs with
  | nil =>
    cases cs with
    | nil => simp [bytewise_compare]
    | cons c cs => simp at h
  | cons a as ih =>
    cases cs with
    | nil => simp at h
    | cons c cs =>
      simp only [List.length_cons, Nat.add_right_cancel_iff] at h
      simp only [List.cons_append, bytewise_compare]
      by_cases h1 : a.val < c.val
      · simp [h1]
      · by_cases h2 : c.val < a.val
        · simp [h1, h2]
        · simp [h1, h2, ih cs h]

theorem bytewise_compare_eq_neg_one_iff (as bs : List Byte) :
    bytewise_compare as bs = -1 ↔ List.Lex (fun x y : Byte => x < y) as bs := by
  induction as generalizing bs with
  | nil =>
    cases bs with
    | nil => simp [bytewise_compare]
    | cons b bs => simp only [bytewise_compare, true_iff]; exact List.Lex.nil
  | cons a as ih =>
    cases bs with
    | nil => simp [bytewise_compare]
    | cons b bs =>
      simp only [bytewise_compare]
      by_cases h1 : a.val < b.val
      · simp only [h1, if_true, true_iff]
        exact List.Lex.rel (Fin.lt_def.mpr h1)
      · by_cases h2 : b.val < a.val
        · simp only [h1, h2, if_true, if_false]
          constructor
          · intro h; simp at h
          · intro h
            cases h with
            | cons _ => omega
            | rel h => exact absurd (Fin.lt_def.mp h) h1
        · have hab : a = b := Fin.ext (by omega)
          subst hab
          simp only [h1, if_false, ih bs]
          constructor
          · intro h; exact List.Lex.cons h
          · intro h
            cases h with
            | cons h => exact h
            | rel h => exact absurd (Fin.lt_def.mp h) h1

theorem bytewise_compare_eq_zero_iff (as bs : List Byte) :
    bytewise_compare as bs = 0 ↔ as = bs := by
  induction as generalizing bs with
  | nil => cases bs <;> simp [bytewise_compare]
  | cons a as ih =>
    cases bs with
    | nil => simp [bytewise_compare]
    | cons b bs =>
      simp only [bytewise_compare, List.cons.injEq]
      by_cases h1 : a.val < b.val
      · have hne : a ≠ b := fun h => by subst h; omega
        simp [h1, hne]
      · by_cases h2 : b.val < a.val
        · have hne : a ≠ b := fun h => by subst h; omega
          simp [h1, h2, hne]
        · have hab : a = b := Fin.ext (by omega)
          simp [h1, h2, hab, ih bs]

theorem bytewise_compare_swap (as bs : List Byte) :
    bytewise_compare bs as = - bytewise_compare as bs := by
  induction as generalizing bs with
  | nil => cases bs <;> simp [bytewise_compare]
  | cons a as ih =>
    cases bs with
    | nil => simp [bytewise_compare]
    | cons b bs =>
      simp only [bytewise_compare]
      by_cases h1 : a.val < b.val
      · have h2 : ¬ b.val < a.val := by omega
        simp [h1, h2]
      · by_cases h2 : b.val < a.val
        · simp [h1, h2]
        · simp [h1, h2, ih bs]

theorem bytewise_compare_range (as bs : List Byte) :
    bytewise_compare as bs = -1 ∨ bytewise_compare as bs = 0 ∨ bytewise_compare as bs = 1 := by
  rw [bytewise_compare_eq_ite]
  split
  · exact Or.inl rfl
  · split
    · exact Or.inr (Or.inr rfl)
    · exact Or.inr (Or.inl rfl)

theorem bytewise_compare_trans (as bs cs : List Byte)
    (h1 : bytewise_compare as bs = -1) (h2 : bytewise_compare bs cs = -1) :
    bytewise_compare as cs = -1 := by
  induction as generalizing bs cs with
  | nil =>
    cases bs with
    | nil => simp [bytewise_compare] at h1
    | cons b bs =>
      cases cs with
      | nil => simp [bytewise_compare] at h2
      | cons c cs => simp [bytewise_compare]
  | cons a as ih =>
    cases bs with
    | nil => simp [bytewise_compare] at h1
    | cons b bs =>
      cases cs with
      | nil => simp [bytewise_compare] at h2
      | cons c cs =>
        simp only [bytewise_compare] at h1 h2 ⊢
        by_cases hab : a.val < b.val
        · by_cases hbc : b.val < c.val
          · have : a.val < c.val := by omega
            simp [this]
          · by_cases hcb : c.val < b.val
            · simp [hbc, hcb] at h2
            · have : a.val < c.val := by omega
              simp [this]
        · by_cases hba : b.val < a.val
          · simp [hab, hba] at h1
          · simp only [hab, hba, if_false] at h1
            by_cases hbc : b.val < c.val
            · have : a.val < c.val := by omega
              simp [this]
            · by_cases hcb : c.val < b.val
              · simp [hbc, hcb] at h2
              · simp only [hbc, hcb, if_false] at h2
                have h3 : ¬ a.val < c.val := by omega
                have h4 : ¬ c.val < a.val := by omega
                simp only [h3, h4, if_false]
                exact ih bs cs h1 h2

/-- On buffers of equal length, `compare_to` is the three-way comparison of
the whole buffers. -/
theorem compare_to_eq_bytewise_compare (a b : ECPoint)
    (h : a.value.length = b.value.length) :
    a.compare_to b = bytewise_compare a.value b.value := by
  have hlen : (a.value.take (a.value.length / 2)).length
      = (b.value.take (a.value.length / 2)).length := by
    simp [List.length_take, h]
  have key := bytewise_compare_append (a.value.take (a.value.length / 2))
    (a.value.drop (a.value.length / 2)) (b.value.take (a.value.length / 2))
    (b.value.drop (a.value.length / 2)) hlen
  rw [List.take_append_drop, List.take_append_drop] at key
  rw [key]
  simp only [ECPoint.compare_to, bytewise_compare_eq_ite]
  cases lexicographical_compare (a.value.take (a.value.length / 2))
      (b.value.take (a.value.length / 2)) <;>
    cases lexicographical_compare (b.value.take (a.value.length / 2))
      (a.value.take (a.value.length / 2)) <;> simp

/-! ## Ordering and equality -/

/-- C1: for two points whose raw buffers both have length `2 * coordinate_size`,
`compare_to` is the plain byte-wise lexicographic three-way comparison of
the whole raw buffers: it equals `bytewise_compare`, it is -1 exactly when
`a.value` is lexicographically less than `b.value`, 0 exactly when they are
equal, and 1 exactly when `b.value` is lexicographically less. -/
theorem compare_to_refines_bytewise_compare (coordinate_size : Nat) (a b : ECPoint)
    (ha : a.value.length = 2 * coordinate_size)
    (hb : b.value.length = 2 * coordinate_size) :
    a.compare_to b = bytewise_compare a.value b.value ∧
    (a.compare_to b = -1 ↔ List.Lex (fun x y : Byte => x < y) a.value b.value) ∧
    (a.compare_to b = 0 ↔ a.value = b.value) ∧
    (a.compare_to b = 1 ↔ List.Lex (fun x y : Byte => x < y) b.value a.value) := by
  have h := compare_to_eq_bytewise_compare a b (ha.trans hb.symm)
  refine ⟨h, ?_, ?_, ?_⟩
  · rw [h]; exact bytewise_compare_eq_neg_one_iff _ _
  · rw [h]; exact bytewise_compare_eq_zero_iff _ _
  · rw [h, ← bytewise_compare_eq_neg_one_iff, bytewise_compare_swap a.value b.value]
    constructor <;> intro h' <;> omega

/-- The comparison theorem at two sample points of 64 bytes (X = 0, Y = 1 against X = 1, Y = 0). -/
theorem compare_to_refines_bytewise_compare_witness :
    sample_point_a.value.length = 2 * 32 ∧ sample_point_b.value.length = 2 * 32 ∧
    (sample_point_a.compare_to sample_point_b
        = bytewise_compare sample_point_a.value sample_point_b.value ∧
      (sample_point_a.compare_to sample_point_b = -1 ↔
        List.Lex (fun x y : Byte => x < y) sample_point_a.value sample_point_b.value) ∧
      (sample_point_a.compare_to sample_point_b = 0 ↔
        sample_point_a.value = sample_point_b.value) ∧
      (sample_point_a.compare_to sample_point_b = 1 ↔
        List.Lex (fun x y : Byte => x < y) sample_point_b.value sample_point_a.value)) :=
  ⟨by decide, by decide,
    compare_to_refines_bytewise_compare 32 sample_point_a sample_point_b
      (by decide) (by decide)⟩

/-- C2: on points whose raw buffers have length `2 * coordinate_size`,
`operator<` is a strict total order: it is irreflexive, `compare_to a b` is
the negation of `compare_to b a`, exactly one of `a < b`, `a == b`, `b < a`
holds, `<` is transitive, `a <= b` holds iff not `b < a`, and `a >= b`
holds iff not `a < b`. -/
theorem operator_lt_strict_total_order (coordinate_size : Nat) (a b c : ECPoint)
    (ha : a.value.length = 2 * coordinate_size)
    (hb : b.value.length = 2 * coordinate_size)
    (hc : c.value.length = 2 * coordinate_size) :
    ECPoint.lt a a = false ∧
    a.compare_to b = - b.compare_to a ∧
    ((ECPoint.lt a b = true ∧ ECPoint.eq a b = false ∧ ECPoint.lt b a = false) ∨
     (ECPoint.lt a b = false ∧ ECPoint.eq a b = true ∧ ECPoint.lt b a = false) ∨
     (ECPoint.lt a b = false ∧ ECPoint.eq a b = false ∧ ECPoint.lt b a = true)) ∧
    (ECPoint.lt a b = true → ECPoint.lt b c = true → ECPoint.lt a c = true) ∧
    (ECPoint.le a b = true ↔ ¬ ECPoint.lt b a = true) ∧
    (ECPoint.ge a b = true ↔ ¬ ECPoint.lt a b = true) := by
  have hab := compare_to_eq_bytewise_compare a b (ha.trans hb.symm)
  have hba := compare_to_eq_bytewise_compare b a (hb.trans ha.symm)
  have hbc := compare_to_eq_bytewise_compare b c (hb.trans hc.symm)
  have hac := compare_to_eq_bytewise_compare a c (ha.trans hc.symm)
  have haa := compare_to_eq_bytewise_compare a a rfl
  have hswap := bytewise_compare_swap a.value b.value
  have hrange := bytewise_compare_range a.value b.value
  have hself := (bytewise_compare_eq_zero_iff a.value a.value).mpr rfl
  simp only [ECPoint.lt, ECPoint.eq, ECPoint.le, ECPoint.ge, ECPoint.gt, hab, hba, hbc, hac,
    haa, hself, hswap, decide_eq_true_eq, decide_eq_false_iff_not, Bool.not_eq_true']
  refine ⟨by omega, by omega, by omega, ?_, by simp, by simp⟩
  intro h1 h2
  have r1 := bytewise_compare_range a.value b.value
  have r2 := bytewise_compare_range b.value c.value
  have t := bytewise_compare_trans a.value b.value c.value (by omega) (by omega)
  omega

/-- The order theorem at three sample points in increasing order. -/
theorem operator_lt_strict_total_order_witness :
    sample_point_a.value.length = 2 * 32 ∧ sample_point_b.value.length = 2 * 32 ∧
    sample_point_c.value.length = 2 * 32 ∧
    (ECPoint.lt sample_point_a sample_point_a = false ∧
     sample_point_a.compare_to sample_point_b = - sample_point_b.compare_to sample_point_a ∧
     ((ECPoint.lt sample_point_a sample_point_b = true ∧
        ECPoint.eq sample_point_a sample_point_b = false ∧
        ECPoint.lt sample_point_b sample_point_a = false) ∨
      (ECPoint.lt sample_point_a sample_point_b = false ∧
        ECPoint.eq sample_point_a sample_point_b = true ∧
        ECPoint.lt sample_point_b sample_point_a = false) ∨
      (ECPoint.lt sample_point_a sample_point_b = false ∧
        ECPoint.eq sample_point_a sample_point_b = false ∧
        ECPoint.lt sample_point_b sample_point_a = true)) ∧
     (ECPoint.lt sample_point_a sample_point_b = true →
        ECPoint.lt sample_point_b sample_point_c = true →
        ECPoint.lt sample_point_a sample_point_c = true) ∧
     (ECPoint.le sample_point_a sample_point_b = true ↔
        ¬ ECPoint.lt sample_point_b sample_point_a = true) ∧
     (ECPoint.ge sample_point_a sample_point_b = true ↔
        ¬ ECPoint.lt sample_point_a sample_point_b = true)) :=
  ⟨by decide, by decide, by decide,
    operator_lt_strict_total_order 32 sample_point_a sample_point_b sample_point_c
      (by decide) (by decide) (by decide)⟩

/-- C3: for two points whose raw buffers have length `2 * coordinate_size`,
`a == b` holds if and only if the raw buffers are equal byte sequences, and
`a != b` is the negation of `a == b`. -/
theorem operator_eq_iff_value_eq (coordinate_size : Nat) (a b : ECPoint)
    (ha : a.value.length = 2 * coordinate_size)
    (hb : b.value.length = 2 * coordinate_size) :
    (ECPoint.eq a b = true ↔ a.value = b.value) ∧
    ECPoint.ne a b = !(ECPoint.eq a b) := by
  have hab := compare_to_eq_bytewise_compare a b (ha.trans hb.symm)
  refine ⟨?_, ?_⟩
  · simp only [ECPoint.eq, hab, decide_eq_true_eq]
    exact bytewise_compare_eq_zero_iff _ _
  · simp [ECPoint.ne, ECPoint.eq]

/-- The equality theorem at two sample points that share X and differ in Y. -/
theorem operator_eq_iff_value_eq_witness :
    sample_point_b.value.length = 2 * 32 ∧ sample_point_c.value.length = 2 * 32 ∧
    ((ECPoint.eq sample_point_b sample_point_c = true ↔
        sample_point_b.value = sample_point_c.value) ∧
     ECPoint.ne sample_point_b sample_point_c = !(ECPoint.eq sample_point_b sample_point_c)) :=
  ⟨by decide, by decide,
    operator_eq_iff_value_eq 32 sample_point_b sample_point_c (by decide) (by decide)⟩

/-! ## Construction and encoding -/

theorem std_copy_zero_of_length_eq (src dst : List Byte) (h : src.length = dst.length) :
    std_copy src dst 0 = src := by
  simp [std_copy, h]

theorem std_copy_length (src dst : List Byte) (offset : Nat)
    (h : offset + src.length ≤ dst.length) :
    (std_copy src dst offset).length = dst.length := by
  simp only [std_copy, List.length_append, List.length_take, List.length_drop]
  omega

theorem uECC_write_length (buf out : List Byte) : (uECC_write buf out).length = buf.length := by
  simp only [uECC_write, std_copy, List.take_zero, List.nil_append, List.length_append,
    List.length_take, List.length_drop, Nat.zero_add]
  omega

theorem uECC_write_of_length_eq (buf out : List Byte) (h : out.length = buf.length) :
    uECC_write buf out = out := by
  simp [uECC_write, std_copy, ← h]

/-- C4: for both curves and either value of `validate`, constructing a point
from the one-byte input `[0x00]` succeeds with no call into the library at
all (so the validity check is not consulted), the point has
`is_infinity = true`, and `encode_point(true)` and `encode_point(false)`
both return exactly the single byte `[0x00]`. -/
theorem infinity_marker_constructs_infinity (B : Backend) (curve : ECCCURVE) (validate : Bool) :
    (ECPoint.ECPoint_public_key B [0x00] curve validate).calls = [] ∧
    ∃ p : ECPoint,
      (ECPoint.ECPoint_public_key B [0x00] curve validate).outcome = .ok p ∧
      p.is_infinity = true ∧
      (p.encode_point true).1 = [0x00] ∧
      (p.encode_point false).1 = [0x00] := by
  refine ⟨by simp [ECPoint.ECPoint_public_key], ?_⟩
  refine ⟨_, by simp only [ECPoint.ECPoint_public_key]; rfl, ?_, ?_, ?_⟩ <;>
    simp [ECPoint.is_infinity, ECPoint.encode_point]

theorem encode_point_uncompressed (p : ECPoint) (h : p._is_infinity = false) :
    (p.encode_point false).1 = 0x04 :: p.value := by
  simp [ECPoint.encode_point, h, std_copy, List.replicate_succ]
  omega

/-- C5: for every non-infinite point, `encode_point(true)` returns exactly the
stored compressed buffer and `encode_point(false)` returns the byte `0x04`
followed by `value` unchanged: its length is `value.size() + 1` (which is
`1 + 2 * coordinate_size` when `value` has `2 * coordinate_size` bytes) and
dropping its first byte gives `value`; neither call modifies the point. -/
theorem encode_point_non_infinite (p : ECPoint) (h : p.is_infinity = false) :
    (p.encode_point true).1 = p.value_compressed ∧
    (p.encode_point false).1 = 0x04 :: p.value ∧
    ((p.encode_point false).1).length = p.value.length + 1 ∧
    (∀ coordinate_size : Nat, p.value.length = 2 * coordinate_size →
      ((p.encode_point false).1).length = 1 + 2 * coordinate_size) ∧
    ((p.encode_point false).1).drop 1 = p.value ∧
    (p.encode_point true).2 = p ∧
    (p.encode_point false).2 = p := by
  have h' : p._is_infinity = false := h
  have hu := encode_point_uncompressed p h'
  refine ⟨by simp [ECPoint.encode_point, h'], hu, by simp [hu], ?_, by simp [hu],
    by simp [ECPoint.encode_point, h'], by simp [ECPoint.encode_point, h']⟩
  intro n hn
  simp only [hu, List.length_cons, hn]
  omega

/-- The encoding theorem at a non-infinite sample point. -/
theorem encode_point_non_infinite_witness :
    sample_point_c.is_infinity = false ∧
    ((sample_point_c.encode_point true).1 = sample_point_c.value_compressed ∧
     (sample_point_c.encode_point false).1 = 0x04 :: sample_point_c.value ∧
     ((sample_point_c.encode_point false).1).length = sample_point_c.value.length + 1 ∧
     (∀ coordinate_size : Nat, sample_point_c.value.length = 2 * coordinate_size →
       ((sample_point_c.encode_point false).1).length = 1 + 2 * coordinate_size) ∧
     ((sample_point_c.encode_point false).1).drop 1 = sample_point_c.value ∧
     (sample_point_c.encode_point true).2 = sample_point_c ∧
     (sample_point_c.encode_point false).2 = sample_point_c) :=
  ⟨by decide, encode_point_non_infinite sample_point_c (by decide)⟩

theorem ECPoint_public_key_compressed (B : Backend) (curve : ECCCURVE) (validate : Bool)
    (pk : List Byte) (hfirst : pk.headD 0 = 0x02 ∨ pk.headD 0 = 0x03)
    (hlen : pk.length = (B.curve curve).private_key_size + 1) :
    ECPoint.ECPoint_public_key B pk curve validate =
      validation_step B curve validate (compressed_branch_point B curve pk)
        [uECC_Call.decompress pk] := by
  cases pk with
  | nil => simp at hlen
  | cons first rest =>
    simp only [List.headD_cons] at hfirst
    simp only [List.length_cons, Nat.add_right_cancel_iff] at hlen
    rcases hfirst with rfl | rfl <;>
      cases validate <;>
      simp [ECPoint.ECPoint_public_key, validation_step, compressed_branch_point, hlen] <;>
      cases (B.curve curve).valid_public_key _ <;> simp

theorem ECPoint_public_key_uncompressed (B : Backend) (curve : ECCCURVE) (validate : Bool)
    (pk : List Byte) (hfirst : pk.headD 0 = 0x04)
    (hlen : pk.length - 1 ≤ (B.curve curve).private_key_size * 2) :
    ECPoint.ECPoint_public_key B pk curve validate =
      validation_step B curve validate (uncompressed_branch_point B curve pk)
        [uECC_Call.compress (uncompressed_branch_point B curve pk).value] := by
  cases pk with
  | nil => simp at hfirst
  | cons first rest =>
    simp only [List.headD_cons] at hfirst
    simp only [List.length_cons, Nat.add_sub_cancel] at hlen
    subst hfirst
    cases validate
    · simp [ECPoint.ECPoint_public_key, validation_step, uncompressed_branch_point, hlen]
    · simp [ECPoint.ECPoint_public_key, validation_step, uncompressed_branch_point, hlen]
      cases (B.curve curve).valid_public_key _ <;> simp

theorem from_bytes_compressed (B : Backend) (self : ECPoint) (curve : ECCCURVE)
    (validate : Bool) (pk : List Byte) (hfirst : pk.headD 0 = 0x02 ∨ pk.headD 0 = 0x03)
    (hlen : pk.length = (B.curve curve).private_key_size + 1) :
    ECPoint.from_bytes B self pk curve validate =
      ({ compressed_branch_point B curve pk with curve := self.curve },
       ⟨(validation_step B curve validate (compressed_branch_point B curve pk)
            [uECC_Call.decompress pk]).outcome.map (fun _ => ()),
        (validation_step B curve validate (compressed_branch_point B curve pk)
            [uECC_Call.decompress pk]).calls⟩) := by
  cases pk with
  | nil => simp at hlen
  | cons first rest =>
    simp only [List.headD_cons] at hfirst
    simp only [List.length_cons, Nat.add_right_cancel_iff] at hlen
    rcases hfirst with rfl | rfl <;>
      cases validate <;>
      simp [ECPoint.from_bytes, validation_step, compressed_branch_point, hlen, Except.map] <;>
      cases (B.curve curve).valid_public_key _ <;> simp

theorem from_bytes_uncompressed (B : Backend) (self : ECPoint) (curve : ECCCURVE)
    (validate : Bool) (pk : List Byte) (hfirst : pk.headD 0 = 0x04)
    (hlen : pk.length - 1 ≤ (B.curve curve).private_key_size * 2) :
    ECPoint.from_bytes B self pk curve validate =
      ({ uncompressed_branch_point B curve pk with curve := self.curve },
       ⟨(validation_step B curve validate (uncompressed_branch_point B curve pk)
            [uECC_Call.compress (uncompressed_branch_point B curve pk).value]).outcome.map
              (fun _ => ()),
        (validation_step B curve validate (uncompressed_branch_point B curve pk)
            [uECC_Call.compress (uncompressed_branch_point B curve pk).value]).calls⟩) := by
  cases pk with
  | nil => simp at hfirst
  | cons first rest =>
    simp only [List.headD_cons] at hfirst
    simp only [List.length_cons, Nat.add_sub_cancel] at hlen
    subst hfirst
    cases validate
    · simp [ECPoint.from_bytes, validation_step, uncompressed_branch_point, hlen, Except.map]
    · simp [ECPoint.from_bytes, validation_step, uncompressed_branch_point, hlen, Except.map]
      cases (B.curve curve).valid_public_key _ <;> simp

theorem validation_step_ok (B : Backend) (curve : ECCCURVE) (validate : Bool)
    (q p : ECPoint) (calls : List uECC_Call)
    (h : (validation_step B curve validate q calls).outcome = .ok p) : p = q := by
  unfold validation_step at h
  split at h
  · split at h
    · injection h with h; exact h.symm
    · simp at h
  · injection h with h; exact h.symm

theorem cons_drop_one_of_headD (pk : List Byte) (b : Byte) (hne : pk ≠ [])
    (h : pk.headD 0 = b) : b :: pk.drop 1 = pk := by
  cases pk with
  | nil => exact absurd rfl hne
  | cons first rest => simp at h; simp [h]

/-- C6: parsing then encoding reproduces the wire bytes, whatever the
library's `decompress` and `compress` return: when construction from `pk`
succeeds, `encode_point(true)` equals `pk` for a `0x02`/`0x03` input of
length `coordinate_size + 1`, and `encode_point(false)` equals `pk` for a
`0x04` input of length `2 * coordinate_size + 1`. -/
theorem parse_then_encode_roundtrip (B : Backend) (curve : ECCCURVE) (validate : Bool)
    (pk : List Byte) (p : ECPoint)
    (hformat :
      ((pk.headD 0 = 0x02 ∨ pk.headD 0 = 0x03) ∧
        pk.length = (B.curve curve).private_key_size + 1) ∨
      (pk.headD 0 = 0x04 ∧ pk.length = 2 * (B.curve curve).private_key_size + 1))
    (hok : (ECPoint.ECPoint_public_key B pk curve validate).outcome = .ok p) :
    ((pk.headD 0 = 0x02 ∨ pk.headD 0 = 0x03) → (p.encode_point true).1 = pk) ∧
    (pk.headD 0 = 0x04 → (p.encode_point false).1 = pk) := by
  rcases hformat with ⟨hfirst, hlen⟩ | ⟨hfirst, hlen⟩
  · rw [ECPoint_public_key_compressed B curve validate pk hfirst hlen] at hok
    have hp := validation_step_ok _ _ _ _ _ _ hok
    subst hp
    refine ⟨fun _ => ?_, fun h4 => ?_⟩
    · simp [ECPoint.encode_point, compressed_branch_point]
    · rcases hfirst with h | h <;> rw [h] at h4 <;> exact absurd h4 (by decide)
  · have hfits : pk.length - 1 ≤ (B.curve curve).private_key_size * 2 := by omega
    rw [ECPoint_public_key_uncompressed B curve validate pk hfirst hfits] at hok
    have hp := validation_step_ok _ _ _ _ _ _ hok
    subst hp
    refine ⟨fun h23 => ?_, fun _ => ?_⟩
    · rcases h23 with h | h <;> rw [h] at hfirst <;> exact absurd hfirst (by decide)
    · have hne : pk ≠ [] := by intro h; simp [h] at hlen
      have hcopy : std_copy (pk.drop 1)
          (List.replicate ((B.curve curve).private_key_size * 2) (0 : Byte)) 0 = pk.drop 1 :=
        std_copy_zero_of_length_eq _ _ (by simp; omega)
      rw [encode_point_uncompressed _ rfl]
      simp only [uncompressed_branch_point, hcopy]
      exact cons_drop_one_of_headD pk 0x04 hne hfirst

/-- The parse-then-encode theorem at a 65-byte uncompressed key, with the stand-in library. -/
theorem parse_then_encode_roundtrip_witness :
    (((sample_uncompressed_key.headD 0 = 0x02 ∨ sample_uncompressed_key.headD 0 = 0x03) ∧
        sample_uncompressed_key.length
          = (toy_backend.curve ECCCURVE.secp256r1).private_key_size + 1) ∨
      (sample_uncompressed_key.headD 0 = 0x04 ∧
        sample_uncompressed_key.length
          = 2 * (toy_backend.curve ECCCURVE.secp256r1).private_key_size + 1)) ∧
    (ECPoint.ECPoint_public_key toy_backend sample_uncompressed_key ECCCURVE.secp256r1
        false).outcome = .ok sample_point_c ∧
    (((sample_uncompressed_key.headD 0 = 0x02 ∨ sample_uncompressed_key.headD 0 = 0x03) →
        (sample_point_c.encode_point true).1 = sample_uncompressed_key) ∧
     (sample_uncompressed_key.headD 0 = 0x04 →
        (sample_point_c.encode_point false).1 = sample_uncompressed_key)) :=
  ⟨by decide, by decide,
    parse_then_encode_roundtrip toy_backend ECCCURVE.secp256r1 false sample_uncompressed_key
      sample_point_c (by decide) (by decide)⟩

theorem ECPoint_private_key_derived (B : Backend) (curve : ECCCURVE)
    (private_key out : List Byte)
    (hlen : private_key.length = (B.curve curve).private_key_size)
    (hout : (B.curve curve).compute_public_key private_key = some out) :
    ECPoint.ECPoint_private_key B private_key curve =
      ⟨.ok (derived_point B curve out),
        [uECC_Call.compute_public_key private_key,
         uECC_Call.compress (derived_point B curve out).value]⟩ := by
  simp [ECPoint.ECPoint_private_key, derived_point, hlen, hout]

theorem compare_to_eq_zero_of_value_eq (a b : ECPoint) (h : a.value = b.value) :
    a.compare_to b = 0 := by
  rw [compare_to_eq_bytewise_compare a b (by rw [h])]
  exact (bytewise_compare_eq_zero_iff _ _).mpr h

/-- C7: let `k` be a private key of the curve's private-key size for which
the library derives a public key, and assume that on the derived raw buffer
`compress` yields a `0x02`/`0x03`-led buffer of length `coordinate_size + 1`,
that `decompress` of it gives the raw buffer back, and (when `validate` is
set) that the library accepts the raw buffer.  Then construction from `k`
yields a point `p`, construction from `encode_point(p, true)` on the same
curve yields a point `q`, and `q == p` (`compare_to` is 0) with identical
`value` and `value_compressed`. -/
theorem private_key_point_roundtrip (B : Backend) (curve : ECCCURVE) (validate : Bool)
    (k out : List Byte)
    (hlen : k.length = (B.curve curve).private_key_size)
    (hout : (B.curve curve).compute_public_key k = some out)
    (hsize : ((B.curve curve).compress (derived_point B curve out).value).length
      = (B.curve curve).private_key_size + 1)
    (hfirst : ((B.curve curve).compress (derived_point B curve out).value).headD 0 = 0x02 ∨
      ((B.curve curve).compress (derived_point B curve out).value).headD 0 = 0x03)
    (hround : (B.curve curve).decompress
      ((B.curve curve).compress (derived_point B curve out).value)
        = (derived_point B curve out).value)
    (hvalid : validate = true →
      (B.curve curve).valid_public_key (derived_point B curve out).value = true) :
    ∃ p q : ECPoint,
      (ECPoint.ECPoint_private_key B k curve).outcome = .ok p ∧
      p = derived_point B curve out ∧
      (ECPoint.ECPoint_public_key B (p.encode_point true).1 curve validate).outcome = .ok q ∧
      q.compare_to p = 0 ∧
      ECPoint.eq q p = true ∧
      q.value = p.value ∧
      q.value_compressed = p.value_compressed := by
  have hvc : (derived_point B curve out).value_compressed
      = (B.curve curve).compress (derived_point B curve out).value :=
    uECC_write_of_length_eq _ _ (by rw [List.length_replicate]; exact hsize)
  have henc : ((derived_point B curve out).encode_point true).1
      = (B.curve curve).compress (derived_point B curve out).value := by
    rw [← hvc]; simp [ECPoint.encode_point, derived_point]
  have hvlen : (derived_point B curve out).value.length
      = (List.replicate ((B.curve curve).private_key_size * 2) (0 : Byte)).length :=
    uECC_write_length _ _
  have hq : compressed_branch_point B curve
      ((B.curve curve).compress (derived_point B curve out).value)
        = derived_point B curve out := by
    have hv : uECC_write (List.replicate ((B.curve curve).private_key_size * 2) (0 : Byte))
        ((B.curve curve).decompress
          ((B.curve curve).compress (derived_point B curve out).value))
          = (derived_point B curve out).value := by
      rw [hround]; exact uECC_write_of_length_eq _ _ hvlen
    unfold compressed_branch_point
    rw [hv, ← hvc]
    rfl
  refine ⟨derived_point B curve out, derived_point B curve out, ?_, rfl, ?_, ?_, ?_, rfl, rfl⟩
  · rw [ECPoint_private_key_derived B curve k out hlen hout]
  · rw [henc, ECPoint_public_key_compressed B curve validate _ hfirst hsize, hq]
    cases validate with
    | false => simp [validation_step]
    | true => simp [validation_step, hvalid rfl]
  · exact compare_to_eq_zero_of_value_eq _ _ rfl
  · simp [ECPoint.eq, compare_to_eq_zero_of_value_eq]

/-- The private-key round trip at a 32-byte key, with the stand-in library and validation requested. -/
theorem private_key_point_roundtrip_witness :
    sample_private_key.length = (toy_backend.curve ECCCURVE.secp256k1).private_key_size ∧
    (toy_backend.curve ECCCURVE.secp256k1).compute_public_key sample_private_key
      = some (List.replicate 64 1) ∧
    ((toy_backend.curve ECCCURVE.secp256k1).compress
      (derived_point toy_backend ECCCURVE.secp256k1 (List.replicate 64 1)).value).length
        = (toy_backend.curve ECCCURVE.secp256k1).private_key_size + 1 ∧
    (((toy_backend.curve ECCCURVE.secp256k1).compress
        (derived_point toy_backend ECCCURVE.secp256k1 (List.replicate 64 1)).value).headD 0
          = 0x02 ∨
      ((toy_backend.curve ECCCURVE.secp256k1).compress
        (derived_point toy_backend ECCCURVE.secp256k1 (List.replicate 64 1)).value).headD 0
          = 0x03) ∧
    (toy_backend.curve ECCCURVE.secp256k1).decompress
      ((toy_backend.curve ECCCURVE.secp256k1).compress
        (derived_point toy_backend ECCCURVE.secp256k1 (List.replicate 64 1)).value)
      = (derived_point toy_backend ECCCURVE.secp256k1 (List.replicate 64 1)).value ∧
    (toy_backend.curve ECCCURVE.secp256k1).valid_public_key
      (derived_point toy_backend ECCCURVE.secp256k1 (List.replicate 64 1)).value = true ∧
    ∃ p q : ECPoint,
      (ECPoint.ECPoint_private_key toy_backend sample_private_key ECCCURVE.secp256k1).outcome
        = .ok p ∧
      p = derived_point toy_backend ECCCURVE.secp256k1 (List.replicate 64 1) ∧
      (ECPoint.ECPoint_public_key toy_backend (p.encode_point true).1 ECCCURVE.secp256k1
        true).outcome = .ok q ∧
      q.compare_to p = 0 ∧
      ECPoint.eq q p = true ∧
      q.value = p.value ∧
      q.value_compressed = p.value_compressed :=
  ⟨by decide, by decide, by decide, by decide, by decide, by decide,
    private_key_point_roundtrip toy_backend ECCCURVE.secp256k1 true sample_private_key
      (List.replicate 64 1) (by decide) (by decide) (by decide) (by decide) (by decide)
      (fun _ => by decide)⟩

/-- C8: for both curves and either value of `validate`, an input whose
first byte is `0x02` or `0x03` and whose length differs from
`coordinate_size + 1` makes the constructor and `from_bytes` throw the
key-length exception, with no call into the library (so `decompress` is
never called on it). -/
theorem compressed_wrong_length_throws (B : Backend) (self : ECPoint) (curve : ECCCURVE)
    (validate : Bool) (pk : List Byte)
    (hfirst : pk.headD 0 = 0x02 ∨ pk.headD 0 = 0x03)
    (hlen : pk.length ≠ (B.curve curve).private_key_size + 1) :
    ECPoint.ECPoint_public_key B pk curve validate =
      ⟨.error (.exception ⟨"Incorrect public key length for specified curve."⟩), []⟩ ∧
    (ECPoint.from_bytes B self pk curve validate).2 =
      ⟨.error (.exception ⟨"Incorrect public key length for specified curve."⟩), []⟩ := by
  cases pk with
  | nil => rcases hfirst with h | h <;> exact absurd h (by decide)
  | cons first rest =>
    simp only [List.headD_cons] at hfirst
    simp only [List.length_cons, ne_eq, Nat.add_right_cancel_iff] at hlen
    rcases hfirst with rfl | rfl <;>
      simp [ECPoint.ECPoint_public_key, ECPoint.from_bytes, hlen]

/-- The key-length theorem at a compressed key that is one byte short (32 bytes). -/
theorem compressed_wrong_length_throws_witness :
    ((sample_compressed_key.take 32).headD 0 = 0x02 ∨
      (sample_compressed_key.take 32).headD 0 = 0x03) ∧
    (sample_compressed_key.take 32).length
      ≠ (toy_backend.curve ECCCURVE.secp256r1).private_key_size + 1 ∧
    (ECPoint.ECPoint_public_key toy_backend (sample_compressed_key.take 32)
        ECCCURVE.secp256r1 true =
      ⟨.error (.exception ⟨"Incorrect public key length for specified curve."⟩), []⟩ ∧
     (ECPoint.from_bytes toy_backend sample_point_a (sample_compressed_key.take 32)
        ECCCURVE.secp256r1 true).2 =
      ⟨.error (.exception ⟨"Incorrect public key length for specified curve."⟩), []⟩) :=
  ⟨by decide, by decide,
    compressed_wrong_length_throws toy_backend sample_point_a ECCCURVE.secp256r1 true
      (sample_compressed_key.take 32) (by decide) (by decide)⟩

/-- C9 (evaluation of the code at the infinity marker): for every library,
curve and `validate`, construction from `[0x00]` succeeds with a `value` of
`2 * curve_size` bytes and a `value_compressed` of `2 * curve_size` bytes as
well, which is `curve_size + 1` bytes only for a curve of size 1 (the two
curves have size 32, giving 64 bytes instead of 33). -/
theorem infinity_point_compressed_size (B : Backend) (curve : ECCCURVE) (validate : Bool) :
    ∃ p : ECPoint,
      (ECPoint.ECPoint_public_key B [0x00] curve validate).outcome = .ok p ∧
      p.value.length = 2 * (B.curve curve).private_key_size ∧
      p.value_compressed.length = 2 * (B.curve curve).private_key_size ∧
      (p.value_compressed.length = (B.curve curve).private_key_size + 1 ↔
        (B.curve curve).private_key_size = 1) := by
  refine ⟨_, by simp only [ECPoint.ECPoint_public_key]; rfl, ?_, ?_, ?_⟩
  · simp; omega
  · simp; omega
  · simp; omega

theorem validation_step_false (B : Backend) (curve : ECCCURVE) (p : ECPoint)
    (calls : List uECC_Call) :
    validation_step B curve false p calls = ⟨.ok p, calls⟩ := by
  simp [validation_step]

theorem validation_step_true_outcome (B : Backend) (curve : ECCCURVE) (p : ECPoint)
    (calls : List uECC_Call) :
    (validation_step B curve true p calls).outcome =
      if (B.curve curve).valid_public_key p.value then .ok p
      else .error (.exception ⟨"Failed public key validation"⟩) := by
  simp only [validation_step, if_true]
  split <;> rfl

/-- C10: for an input that passes the format checks and is not the infinity
marker (a `0x02`/`0x03` input of length `coordinate_size + 1`, or a `0x04`
input of length `2 * coordinate_size + 1`), construction with
`validate = false` succeeds with a point `p` and makes no `valid_public_key`
call; construction with `validate = true` throws the validation exception
exactly when the library rejects `p.value` (the populated raw buffer) and
yields `p` exactly when the library accepts it.  The same holds for
`from_bytes` on any receiver. -/
theorem validation_decides_construction (B : Backend) (self : ECPoint) (curve : ECCCURVE)
    (pk : List Byte)
    (hformat :
      ((pk.headD 0 = 0x02 ∨ pk.headD 0 = 0x03) ∧
        pk.length = (B.curve curve).private_key_size + 1) ∨
      (pk.headD 0 = 0x04 ∧ pk.length = 2 * (B.curve curve).private_key_size + 1)) :
    ∃ p : ECPoint,
      (ECPoint.ECPoint_public_key B pk curve false).outcome = .ok p ∧
      (∀ x, uECC_Call.valid_public_key x ∉
        (ECPoint.ECPoint_public_key B pk curve false).calls) ∧
      ((ECPoint.ECPoint_public_key B pk curve true).outcome =
          .error (.exception ⟨"Failed public key validation"⟩) ↔
        (B.curve curve).valid_public_key p.value = false) ∧
      ((ECPoint.ECPoint_public_key B pk curve true).outcome = .ok p ↔
        (B.curve curve).valid_public_key p.value = true) ∧
      (ECPoint.from_bytes B self pk curve false).2.outcome = .ok () ∧
      (ECPoint.from_bytes B self pk curve false).1.value = p.value ∧
      (∀ x, uECC_Call.valid_public_key x ∉
        (ECPoint.from_bytes B self pk curve false).2.calls) ∧
      ((ECPoint.from_bytes B self pk curve true).2.outcome =
          .error (.exception ⟨"Failed public key validation"⟩) ↔
        (B.curve curve).valid_public_key p.value = false) ∧
      ((ECPoint.from_bytes B self pk curve true).2.outcome = .ok () ↔
        (B.curve curve).valid_public_key p.value = true) := by
  rcases hformat with ⟨hfirst, hlen⟩ | ⟨hfirst, hlen⟩
  · refine ⟨compressed_branch_point B curve pk, ?_⟩
    simp only [ECPoint_public_key_compressed B curve _ pk hfirst hlen,
      from_bytes_compressed B self curve _ pk hfirst hlen, validation_step_false,
      validation_step_true_outcome]
    cases (B.curve curve).valid_public_key (compressed_branch_point B curve pk).value <;>
      simp [Except.map]
  · have hfits : pk.length - 1 ≤ (B.curve curve).private_key_size * 2 := by omega
    refine ⟨uncompressed_branch_point B curve pk, ?_⟩
    simp only [ECPoint_public_key_uncompressed B curve _ pk hfirst hfits,
      from_bytes_uncompressed B self curve _ pk hfirst hfits, validation_step_false,
      validation_step_true_outcome]
    cases (B.curve curve).valid_public_key (uncompressed_branch_point B curve pk).value <;>
      simp [Except.map]

/-- The validation theorem at a 33-byte compressed key, with the stand-in library. -/
theorem validation_decides_construction_witness :
    (((sample_compressed_key.headD 0 = 0x02 ∨ sample_compressed_key.headD 0 = 0x03) ∧
        sample_compressed_key.length
          = (toy_backend.curve ECCCURVE.secp256r1).private_key_size + 1) ∨
      (sample_compressed_key.headD 0 = 0x04 ∧
        sample_compressed_key.length
          = 2 * (toy_backend.curve ECCCURVE.secp256r1).private_key_size + 1)) ∧
    ∃ p : ECPoint,
      (ECPoint.ECPoint_public_key toy_backend sample_compressed_key ECCCURVE.secp256r1
        false).outcome = .ok p ∧
      (∀ x, uECC_Call.valid_public_key x ∉
        (ECPoint.ECPoint_public_key toy_backend sample_compressed_key ECCCURVE.secp256r1
          false).calls) ∧
      ((ECPoint.ECPoint_public_key toy_backend sample_compressed_key ECCCURVE.secp256r1
          true).outcome = .error (.exception ⟨"Failed public key validation"⟩) ↔
        (toy_backend.curve ECCCURVE.secp256r1).valid_public_key p.value = false) ∧
      ((ECPoint.ECPoint_public_key toy_backend sample_compressed_key ECCCURVE.secp256r1
          true).outcome = .ok p ↔
        (toy_backend.curve ECCCURVE.secp256r1).valid_public_key p.value = true) ∧
      (ECPoint.from_bytes toy_backend sample_point_a sample_compressed_key
        ECCCURVE.secp256r1 false).2.outcome = .ok () ∧
      (ECPoint.from_bytes toy_backend sample_point_a sample_compressed_key
        ECCCURVE.secp256r1 false).1.value = p.value ∧
      (∀ x, uECC_Call.valid_public_key x ∉
        (ECPoint.from_bytes toy_backend sample_point_a sample_compressed_key
          ECCCURVE.secp256r1 false).2.calls) ∧
      ((ECPoint.from_bytes toy_backend sample_point_a sample_compressed_key
          ECCCURVE.secp256r1 true).2.outcome =
            .error (.exception ⟨"Failed public key validation"⟩) ↔
        (toy_backend.curve ECCCURVE.secp256r1).valid_public_key p.value = false) ∧
      ((ECPoint.from_bytes toy_backend sample_point_a sample_compressed_key
          ECCCURVE.secp256r1 true).2.outcome = .ok () ↔
        (toy_backend.curve ECCCURVE.secp256r1).valid_public_key p.value = true) :=
  ⟨by decide,
    validation_decides_construction toy_backend sample_point_a ECCCURVE.secp256r1
      sample_compressed_key (by decide)⟩

/-! ## Empty keys, private keys, signatures -/

/-- C11: for every curve and `validate` flag, construction from an empty byte
sequence throws the "Public key has no data" exception, and `from_bytes`
with an empty byte sequence throws the same exception and leaves every
field of the receiver unchanged; neither calls the library. -/
theorem empty_key_throws (B : Backend) (self : ECPoint) (curve : ECCCURVE) (validate : Bool) :
    ECPoint.ECPoint_public_key B [] curve validate =
      ⟨.error (.exception ⟨"Public key has no data"⟩), []⟩ ∧
    (ECPoint.from_bytes B self [] curve validate).2 =
      ⟨.error (.exception ⟨"Public key has no data"⟩), []⟩ ∧
    (ECPoint.from_bytes B self [] curve validate).1 = self := by
  simp [ECPoint.ECPoint_public_key, ECPoint.from_bytes]

theorem ECPoint_private_key_wrong_length (B : Backend) (curve : ECCCURVE)
    (private_key : List Byte)
    (hlen : private_key.length ≠ (B.curve curve).private_key_size) :
    ECPoint.ECPoint_private_key B private_key curve =
      ⟨.error (.exception ⟨"Incorrect private key length for specified curve"⟩), []⟩ := by
  have hlen' : ¬ (B.curve curve).private_key_size = private_key.length := fun h => hlen h.symm
  simp [ECPoint.ECPoint_private_key, hlen']

theorem ECPoint_private_key_underivable (B : Backend) (curve : ECCCURVE)
    (private_key : List Byte)
    (hlen : private_key.length = (B.curve curve).private_key_size)
    (hout : (B.curve curve).compute_public_key private_key = none) :
    ECPoint.ECPoint_private_key B private_key curve =
      ⟨.error (.exception ⟨"Failed public key computation"⟩),
        [uECC_Call.compute_public_key private_key]⟩ := by
  simp [ECPoint.ECPoint_private_key, hlen, hout]

/-- C14: construction from a private key throws the key-length exception
exactly when the key's length differs from the curve's private-key size,
and then without any library call; with the right length it throws the
key-computation exception when `compute_public_key` fails, and otherwise
yields a point with `is_infinity = false`, `curve = c`, `value` the
`2 * curve_size` bytes the library derived and `value_compressed` the
`curve_size + 1` bytes `compress` wrote for `value`. -/
theorem private_key_construction (B : Backend) (curve : ECCCURVE) (private_key : List Byte) :
    ((ECPoint.ECPoint_private_key B private_key curve).outcome =
        .error (.exception ⟨"Incorrect private key length for specified curve"⟩) ↔
      private_key.length ≠ (B.curve curve).private_key_size) ∧
    (private_key.length ≠ (B.curve curve).private_key_size →
      (ECPoint.ECPoint_private_key B private_key curve).calls = []) ∧
    (private_key.length = (B.curve curve).private_key_size →
      (B.curve curve).compute_public_key private_key = none →
      (ECPoint.ECPoint_private_key B private_key curve).outcome =
        .error (.exception ⟨"Failed public key computation"⟩)) ∧
    (∀ out : List Byte,
      private_key.length = (B.curve curve).private_key_size →
      (B.curve curve).compute_public_key private_key = some out →
      ∃ p : ECPoint,
        (ECPoint.ECPoint_private_key B private_key curve).outcome = .ok p ∧
        p.is_infinity = false ∧
        p.curve = curve ∧
        p.value = uECC_write (List.replicate ((B.curve curve).private_key_size * 2) 0) out ∧
        p.value.length = 2 * (B.curve curve).private_key_size ∧
        (out.length = 2 * (B.curve curve).private_key_size → p.value = out) ∧
        p.value_compressed =
          uECC_write (List.replicate ((B.curve curve).private_key_size + 1) 0)
            ((B.curve curve).compress p.value) ∧
        p.value_compressed.length = (B.curve curve).private_key_size + 1 ∧
        (((B.curve curve).compress p.value).length = (B.curve curve).private_key_size + 1 →
          p.value_compressed = (B.curve curve).compress p.value)) := by
  refine ⟨?_, ?_, ?_, ?_⟩
  · constructor
    · intro h hlen
      cases hout : (B.curve curve).compute_public_key private_key with
      | none =>
        rw [ECPoint_private_key_underivable B curve private_key hlen hout] at h
        simp at h
      | some out =>
        rw [ECPoint_private_key_derived B curve private_key out hlen hout] at h
        simp at h
    · intro hlen
      rw [ECPoint_private_key_wrong_length B curve private_key hlen]
  · intro hlen
    rw [ECPoint_private_key_wrong_length B curve private_key hlen]
  · intro hlen hout
    rw [ECPoint_private_key_underivable B curve private_key hlen hout]
  · intro out hlen hout
    refine ⟨derived_point B curve out, ?_, rfl, rfl, rfl, ?_, ?_, rfl, ?_, ?_⟩
    · rw [ECPoint_private_key_derived B curve private_key out hlen hout]
    · simp only [derived_point, uECC_write_length, List.length_replicate]; omega
    · intro h
      exact uECC_write_of_length_eq _ _ (by simp only [List.length_replicate]; omega)
    · simp only [derived_point, uECC_write_length, List.length_replicate]
    · intro h
      exact uECC_write_of_length_eq _ _ (by simp only [List.length_replicate]; exact h)

theorem verify_of_length_eq (B : Backend) (signature message_hash : List Byte)
    (public_key : ECPoint)
    (hlen : signature.length = (B.curve public_key.curve).private_key_size * 2) :
    verify B signature message_hash public_key =
      ⟨.ok ((B.curve public_key.curve).verify public_key.value message_hash signature),
        [uECC_Call.verify public_key.value message_hash signature]⟩ := by
  simp [verify, hlen]

theorem sign_of_length_eq (B : Backend) (private_key message_hash : List Byte)
    (curve : ECCCURVE) (hlen : private_key.length = (B.curve curve).private_key_size) :
    sign B private_key message_hash curve =
      ⟨.ok (uECC_write (List.replicate ((B.curve curve).private_key_size * 2) 0)
          ((B.curve curve).sign private_key message_hash)),
        [uECC_Call.sign private_key message_hash]⟩ := by
  simp [sign, hlen]

/-- C15: `verify` throws the signature-length exception exactly when the
signature's length differs from `2 * curve_size` for the curve of
`public_key` (and then without calling the library); for a signature of
that length it does not throw, makes the single library call on
`(public_key.value, message_hash, signature)`, and returns exactly the
boolean the library gives, so a rejected signature is `false`, not an
error. -/
theorem verify_contract (B : Backend) (signature message_hash : List Byte)
    (public_key : ECPoint) :
    ((verify B signature message_hash public_key).outcome =
        .error (.exception ⟨"Incorrect signature length for specified curve."⟩) ↔
      signature.length ≠ 2 * (B.curve public_key.curve).private_key_size) ∧
    (signature.length ≠ 2 * (B.curve public_key.curve).private_key_size →
      (verify B signature message_hash public_key).calls = []) ∧
    (signature.length = 2 * (B.curve public_key.curve).private_key_size →
      (verify B signature message_hash public_key).outcome =
        .ok ((B.curve public_key.curve).verify public_key.value message_hash signature) ∧
      (verify B signature message_hash public_key).calls =
        [uECC_Call.verify public_key.value message_hash signature]) := by
  by_cases hlen : signature.length = (B.curve public_key.curve).private_key_size * 2
  · have hlen2 : signature.length = 2 * (B.curve public_key.curve).private_key_size := by omega
    rw [verify_of_length_eq B signature message_hash public_key hlen]
    simp [hlen2]
  · have hlen2 : signature.length ≠ 2 * (B.curve public_key.curve).private_key_size := by omega
    simp [verify, hlen, hlen2]

/-- C16: `sign` throws the key-length exception exactly when the private
key's length differs from the curve's private-key size (and then without
calling the library); otherwise, for a message hash of any length, it makes
the single library call on the private key and the message hash as given
and returns the signature buffer that call filled, of length exactly
`2 * curve_size`. -/
theorem sign_contract (B : Backend) (private_key message_hash : List Byte)
    (curve : ECCCURVE) :
    ((sign B private_key message_hash curve).outcome =
        .error (.exception ⟨"Incorrect private key length for specified curve."⟩) ↔
      private_key.length ≠ (B.curve curve).private_key_size) ∧
    (private_key.length ≠ (B.curve curve).private_key_size →
      (sign B private_key message_hash curve).calls = []) ∧
    (private_key.length = (B.curve curve).private_key_size →
      (sign B private_key message_hash curve).calls =
        [uECC_Call.sign private_key message_hash] ∧
      ∃ signature : List Byte,
        (sign B private_key message_hash curve).outcome = .ok signature ∧
        signature = uECC_write (List.replicate ((B.curve curve).private_key_size * 2) 0)
          ((B.curve curve).sign private_key message_hash) ∧
        signature.length = 2 * (B.curve curve).private_key_size ∧
        (((B.curve curve).sign private_key message_hash).length
            = 2 * (B.curve curve).private_key_size →
          signature = (B.curve curve).sign private_key message_hash)) := by
  by_cases hlen : private_key.length = (B.curve curve).private_key_size
  · rw [sign_of_length_eq B private_key message_hash curve hlen]
    refine ⟨by simp [hlen], by simp [hlen], fun _ => ⟨rfl, _, rfl, rfl, ?_, ?_⟩⟩
    · simp only [uECC_write_length, List.length_replicate]; omega
    · intro h
      exact uECC_write_of_length_eq _ _ (by simp only [List.length_replicate]; omega)
  · simp [sign, hlen]

/-- C17: let `priv` be a private key of the curve's private-key size whose
public key the library derives, `d` a message hash (of 32 bytes or any other
length), and assume the library's `verify` accepts, for the derived public
key and `d`, the signature its `sign` produces with `priv` over `d`.  Then
construction from `priv` yields a point `pub`, `sign(priv, d, curve)`
returns a signature, and `verify` of that signature, `d` and `pub` throws
nothing and returns `true`. -/
theorem sign_verify_roundtrip (B : Backend) (curve : ECCCURVE) (priv out d : List Byte)
    (hlen : priv.length = (B.curve curve).private_key_size)
    (hout : (B.curve curve).compute_public_key priv = some out)
    (haccepts : (B.curve curve).verify (derived_point B curve out).value d
      (uECC_write (List.replicate ((B.curve curve).private_key_size * 2) 0)
        ((B.curve curve).sign priv d)) = true) :
    ∃ (pub : ECPoint) (signature : List Byte),
      (ECPoint.ECPoint_private_key B priv curve).outcome = .ok pub ∧
      pub.value = (derived_point B curve out).value ∧
      (sign B priv d curve).outcome = .ok signature ∧
      (verify B signature d pub).outcome = .ok true := by
  refine ⟨derived_point B curve out,
    uECC_write (List.replicate ((B.curve curve).private_key_size * 2) 0)
      ((B.curve curve).sign priv d), ?_, rfl, ?_, ?_⟩
  · rw [ECPoint_private_key_derived B curve priv out hlen hout]
  · rw [sign_of_length_eq B priv d curve hlen]
  · have hsig : (uECC_write (List.replicate ((B.curve curve).private_key_size * 2) (0 : Byte))
        ((B.curve curve).sign priv d)).length
          = (B.curve (derived_point B curve out).curve).private_key_size * 2 := by
      simp only [uECC_write_length, List.length_replicate]; rfl
    rw [verify_of_length_eq B _ d (derived_point B curve out) hsig]
    exact congrArg Except.ok haccepts

/-- The signature round trip at a 32-byte key and the 32-byte message hash
0x05 repeated, with the stand-in library. -/
theorem sign_verify_roundtrip_witness :
    sample_private_key.length = (toy_backend.curve ECCCURVE.secp256r1).private_key_size ∧
    (toy_backend.curve ECCCURVE.secp256r1).compute_public_key sample_private_key
      = some (List.replicate 64 1) ∧
    (toy_backend.curve ECCCURVE.secp256r1).verify
      (derived_point toy_backend ECCCURVE.secp256r1 (List.replicate 64 1)).value
      (List.replicate 32 5)
      (uECC_write
        (List.replicate ((toy_backend.curve ECCCURVE.secp256r1).private_key_size * 2) 0)
        ((toy_backend.curve ECCCURVE.secp256r1).sign sample_private_key
          (List.replicate 32 5))) = true ∧
    ∃ (pub : ECPoint) (signature : List Byte),
      (ECPoint.ECPoint_private_key toy_backend sample_private_key
        ECCCURVE.secp256r1).outcome = .ok pub ∧
      pub.value = (derived_point toy_backend ECCCURVE.secp256r1 (List.replicate 64 1)).value ∧
      (sign toy_backend sample_private_key (List.replicate 32 5)
        ECCCURVE.secp256r1).outcome = .ok signature ∧
      (verify toy_backend signature (List.replicate 32 5) pub).outcome = .ok true :=
  ⟨by decide, by decide, by decide,
    sign_verify_roundtrip toy_backend ECCCURVE.secp256r1 sample_private_key
      (List.replicate 64 1) (List.replicate 32 5) (by decide) (by decide) (by decide)⟩

/-! ## `from_bytes` against the constructor -/

/-- C12 (what the code does): on every receiver and every input `from_bytes`
ends as the constructor does (same exception or success, same library
calls), and when the constructor succeeds with `p` the receiver's `value`
and `is_infinity` afterwards are those of `p`, as is `value_compressed` for
the infinity marker and for a first byte `0x02`, `0x03` or `0x04`; but
`p.curve` is the curve passed in, while the receiver keeps the `curve` it
had before the call: `from_bytes` never assigns the member `curve`. -/
theorem from_bytes_vs_constructor (B : Backend) (self : ECPoint) (pk : List Byte)
    (curve : ECCCURVE) (validate : Bool) :
    (ECPoint.from_bytes B self pk curve validate).2.outcome =
      (ECPoint.ECPoint_public_key B pk curve validate).outcome.map (fun _ => ()) ∧
    (ECPoint.from_bytes B self pk curve validate).2.calls =
      (ECPoint.ECPoint_public_key B pk curve validate).calls ∧
    (ECPoint.from_bytes B self pk curve validate).1.curve = self.curve ∧
    (∀ p : ECPoint, (ECPoint.ECPoint_public_key B pk curve validate).outcome = .ok p →
      p.curve = curve ∧
      (ECPoint.from_bytes B self pk curve validate).1.value = p.value ∧
      (ECPoint.from_bytes B self pk curve validate).1._is_infinity = p._is_infinity ∧
      ((pk = [0x00] ∨ pk.headD 0 = 0x02 ∨ pk.headD 0 = 0x03 ∨ pk.headD 0 = 0x04) →
        (ECPoint.from_bytes B self pk curve validate).1.value_compressed
          = p.value_compressed)) := by
  cases pk with
  | nil => simp [ECPoint.from_bytes, ECPoint.ECPoint_public_key, Except.map]
  | cons first rest =>
    simp only [ECPoint.from_bytes, ECPoint.ECPoint_public_key]
    split_ifs <;> simp_all [Except.map] <;> (try split_ifs) <;> (try simp_all) <;> tauto

/-- C13 (counterexample): `from_bytes` on a sample point with a compressed
key that is one byte short throws the key-length exception, and the
receiver's `value` afterwards differs from its `value` before the call. -/
theorem failed_from_bytes_changes_value :
    (ECPoint.from_bytes toy_backend sample_point_a (sample_compressed_key.take 32)
        ECCCURVE.secp256r1 false).2.outcome =
      .error (.exception ⟨"Incorrect public key length for specified curve."⟩) ∧
    (ECPoint.from_bytes toy_backend sample_point_a (sample_compressed_key.take 32)
        ECCCURVE.secp256r1 false).1.value ≠ sample_point_a.value := by
  decide

/-- C13 (amended): when `from_bytes` throws an exception, the receiver's
`curve` is what it was before and the exception is one of three.  After the
empty-key exception every field is unchanged.  After the key-length
exception `value_compressed` is unchanged, but `value` has been reset to
`2 * curve_size` zero bytes and `is_infinity` to false.  After the validation
exception the receiver is left as the same call without validation leaves
it: populated from the rejected input. -/
theorem failed_from_bytes_state (B : Backend) (self : ECPoint) (pk : List Byte)
    (curve : ECCCURVE) (validate : Bool) (e : ECCException)
    (hfail : (ECPoint.from_bytes B self pk curve validate).2.outcome
      = .error (.exception e)) :
    (ECPoint.from_bytes B self pk curve validate).1.curve = self.curve ∧
    (e = ⟨"Public key has no data"⟩ ∨
      e = ⟨"Incorrect public key length for specified curve."⟩ ∨
      e = ⟨"Failed public key validation"⟩) ∧
    (e = ⟨"Public key has no data"⟩ →
      (ECPoint.from_bytes B self pk curve validate).1 = self) ∧
    (e = ⟨"Incorrect public key length for specified curve."⟩ →
      (ECPoint.from_bytes B self pk curve validate).1 =
        { self with
          value := List.replicate ((B.curve curve).private_key_size * 2) 0,
          _is_infinity := false }) ∧
    (e = ⟨"Failed public key validation"⟩ →
      (ECPoint.from_bytes B self pk curve validate).1 =
        (ECPoint.from_bytes B self pk curve false).1 ∧
      (ECPoint.from_bytes B self pk curve false).2.outcome = .ok ()) := by
  cases pk with
  | nil =>
    simp only [ECPoint.from_bytes, List.isEmpty_nil, if_true] at hfail ⊢
    simp only [Except.error.injEq, Fault.exception.injEq] at hfail
    subst hfail
    simp
  | cons first rest =>
    simp only [ECPoint.from_bytes] at hfail ⊢
    split_ifs at hfail ⊢ <;> simp_all <;> (try split_ifs at hfail ⊢) <;> (try simp_all) <;>
      (try subst hfail) <;> (try simp_all)

/-- The failed-call theorem at a rejected uncompressed key (Y differs from
X, which the stand-in library rejects), on a sample receiver. -/
theorem failed_from_bytes_state_witness :
    (ECPoint.from_bytes toy_backend sample_point_a sample_uncompressed_key
        ECCCURVE.secp256k1 true).2.outcome
      = .error (.exception ⟨"Failed public key validation"⟩) ∧
    ((ECPoint.from_bytes toy_backend sample_point_a sample_uncompressed_key
        ECCCURVE.secp256k1 true).1.curve = sample_point_a.curve ∧
     ((⟨"Failed public key validation"⟩ : ECCException) = ⟨"Public key has no data"⟩ ∨
      (⟨"Failed public key validation"⟩ : ECCException)
        = ⟨"Incorrect public key length for specified curve."⟩ ∨
      (⟨"Failed public key validation"⟩ : ECCException)
        = ⟨"Failed public key validation"⟩) ∧
     ((⟨"Failed public key validation"⟩ : ECCException) = ⟨"Public key has no data"⟩ →
      (ECPoint.from_bytes toy_backend sample_point_a sample_uncompressed_key
        ECCCURVE.secp256k1 true).1 = sample_point_a) ∧
     ((⟨"Failed public key validation"⟩ : ECCException)
        = ⟨"Incorrect public key length for specified curve."⟩ →
      (ECPoint.from_bytes toy_backend sample_point_a sample_uncompressed_key
        ECCCURVE.secp256k1 true).1 =
        { sample_point_a with
          value := List.replicate
            ((toy_backend.curve ECCCURVE.secp256k1).private_key_size * 2) 0,
          _is_infinity := false }) ∧
     ((⟨"Failed public key validation"⟩ : ECCException)
        = ⟨"Failed public key validation"⟩ →
      (ECPoint.from_bytes toy_backend sample_point_a sample_uncompressed_key
        ECCCURVE.secp256k1 true).1 =
        (ECPoint.from_bytes toy_backend sample_point_a sample_uncompressed_key
          ECCCURVE.secp256k1 false).1 ∧
      (ECPoint.from_bytes toy_backend sample_point_a sample_uncompressed_key
        ECCCURVE.secp256k1 false).2.outcome = .ok ())) :=
  ⟨by decide,
    failed_from_bytes_state toy_backend sample_point_a sample_uncompressed_key
      ECCCURVE.secp256k1 true ⟨"Failed public key validation"⟩ (by decide)⟩

/-! ## Inputs the parser does not recognise, short uncompressed keys, copies -/

/-- C18 (counterexample): construction from the one-byte input `[0x05]`
without validation succeeds, but the point it yields does not have a
zero-filled `value_compressed` of `curve_size + 1` bytes. -/
theorem unrecognised_first_byte_compressed_not_zero_filled :
    ¬ ∃ p : ECPoint,
      (ECPoint.ECPoint_public_key toy_backend [0x05] ECCCURVE.secp256r1 false).outcome
        = .ok p ∧
      p.is_infinity = false ∧
      p.value = List.replicate (2 * (toy_backend.curve ECCCURVE.secp256r1).private_key_size) 0 ∧
      p.value_compressed =
        List.replicate ((toy_backend.curve ECCCURVE.secp256r1).private_key_size + 1) 0 := by
  rintro ⟨p, hp, -, -, hc⟩
  have hrun : (ECPoint.ECPoint_public_key toy_backend [0x05] ECCCURVE.secp256r1 false).outcome
      = .ok { value := List.replicate 64 0, curve := ECCCURVE.secp256r1 } := by decide
  rw [hrun] at hp
  injection hp with hp
  subst hp
  revert hc
  decide

/-- C18 (amended): for a non-empty input whose first byte is none of `0x02`,
`0x03`, `0x04` and which is not the one-byte infinity marker, construction
without validation throws nothing, calls the library not at all, and yields
a non-infinite point on the given curve whose `value` is `2 * curve_size`
zero bytes and whose `value_compressed` is empty; with validation it throws
the validation exception exactly when the library rejects the all-zero
`value`, and yields the same point otherwise. -/
theorem unrecognised_first_byte_construction (B : Backend) (curve : ECCCURVE)
    (pk : List Byte)
    (hne : pk ≠ [])
    (hfirst : pk.headD 0 ≠ 0x02 ∧ pk.headD 0 ≠ 0x03 ∧ pk.headD 0 ≠ 0x04)
    (hmarker : pk.headD 0 = 0x00 → pk.length ≠ 1) :
    ∃ p : ECPoint,
      ECPoint.ECPoint_public_key B pk curve false = ⟨.ok p, []⟩ ∧
      p.is_infinity = false ∧
      p.curve = curve ∧
      p.value = List.replicate ((B.curve curve).private_key_size * 2) 0 ∧
      p.value_compressed = [] ∧
      ((ECPoint.ECPoint_public_key B pk curve true).outcome =
          .error (.exception ⟨"Failed public key validation"⟩) ↔
        (B.curve curve).valid_public_key p.value = false) ∧
      ((ECPoint.ECPoint_public_key B pk curve true).outcome = .ok p ↔
        (B.curve curve).valid_public_key p.value = true) := by
  cases pk with
  | nil => exact absurd rfl hne
  | cons first rest =>
    simp only [List.headD_cons, List.length_cons, ne_eq, Nat.add_left_eq_self,
      List.length_eq_zero] at hfirst hmarker
    obtain ⟨h2, h3, h4⟩ := hfirst
    have hinf : ¬ (rest = [] ∧ first = 0) := fun h => hmarker h.2 h.1
    refine ⟨{ value := List.replicate ((B.curve curve).private_key_size * 2) 0,
              curve := curve }, ?_, rfl, rfl, rfl, rfl, ?_, ?_⟩
    · simp [ECPoint.ECPoint_public_key, h2, h3, h4, hinf]
    · simp only [ECPoint.ECPoint_public_key]
      cases hv : (B.curve curve).valid_public_key
        (List.replicate ((B.curve curve).private_key_size * 2) 0) <;>
        simp [h2, h3, h4, hinf, hv]
    · simp only [ECPoint.ECPoint_public_key]
      cases hv : (B.curve curve).valid_public_key
        (List.replicate ((B.curve curve).private_key_size * 2) 0) <;>
        simp [h2, h3, h4, hinf, hv]

/-- The unrecognised-input theorem at the two-byte input `[0x00, 0x07]`,
which starts like the infinity marker but is longer. -/
theorem unrecognised_first_byte_construction_witness :
    ([0x00, 0x07] : List Byte) ≠ [] ∧
    (([0x00, 0x07] : List Byte).headD 0 ≠ 0x02 ∧ ([0x00, 0x07] : List Byte).headD 0 ≠ 0x03 ∧
      ([0x00, 0x07] : List Byte).headD 0 ≠ 0x04) ∧
    (([0x00, 0x07] : List Byte).headD 0 = 0x00 → ([0x00, 0x07] : List Byte).length ≠ 1) ∧
    ∃ p : ECPoint,
      ECPoint.ECPoint_public_key toy_backend [0x00, 0x07] ECCCURVE.secp256k1 false
        = ⟨.ok p, []⟩ ∧
      p.is_infinity = false ∧
      p.curve = ECCCURVE.secp256k1 ∧
      p.value = List.replicate
        ((toy_backend.curve ECCCURVE.secp256k1).private_key_size * 2) 0 ∧
      p.value_compressed = [] ∧
      ((ECPoint.ECPoint_public_key toy_backend [0x00, 0x07] ECCCURVE.secp256k1 true).outcome =
          .error (.exception ⟨"Failed public key validation"⟩) ↔
        (toy_backend.curve ECCCURVE.secp256k1).valid_public_key p.value = false) ∧
      ((ECPoint.ECPoint_public_key toy_backend [0x00, 0x07] ECCCURVE.secp256k1 true).outcome
          = .ok p ↔
        (toy_backend.curve ECCCURVE.secp256k1).valid_public_key p.value = true) :=
  ⟨by decide, by decide, by decide,
    unrecognised_first_byte_construction toy_backend ECCCURVE.secp256k1 [0x00, 0x07]
      (by decide) (by decide) (by decide)⟩

theorem std_copy_zero_into_replicate (src : List Byte) (n : Nat) :
    std_copy src (List.replicate n (0 : Byte)) 0
      = src ++ List.replicate (n - src.length) 0 := by
  simp [std_copy]

/-- C19: the `0x04` branch performs no length check.  For an input whose
first byte is `0x04` and whose length `n` satisfies
`1 <= n < 2 * curve_size + 1`, construction without validation throws
nothing and yields a non-infinite point whose `value` has `2 * curve_size`
bytes, the `n - 1` bytes after the first followed by zero bytes, and whose
`value_compressed` is the buffer `compress` filled for that `value` (equal
to what `compress` returns when that has `curve_size + 1` bytes). -/
theorem short_uncompressed_key_construction (B : Backend) (curve : ECCCURVE)
    (pk : List Byte)
    (hfirst : pk.headD 0 = 0x04)
    (hpos : 1 ≤ pk.length)
    (hshort : pk.length < 2 * (B.curve curve).private_key_size + 1) :
    ∃ p : ECPoint,
      ECPoint.ECPoint_public_key B pk curve false =
        ⟨.ok p, [uECC_Call.compress p.value]⟩ ∧
      p.is_infinity = false ∧
      p.curve = curve ∧
      p.value.length = 2 * (B.curve curve).private_key_size ∧
      p.value = pk.drop 1 ++
        List.replicate (2 * (B.curve curve).private_key_size - (pk.length - 1)) 0 ∧
      p.value_compressed =
        uECC_write (List.replicate ((B.curve curve).private_key_size + 1) 0)
          ((B.curve curve).compress p.value) ∧
      (((B.curve curve).compress p.value).length = (B.curve curve).private_key_size + 1 →
        p.value_compressed = (B.curve curve).compress p.value) := by
  have hfits : pk.length - 1 ≤ (B.curve curve).private_key_size * 2 := by omega
  have hvalue : (uncompressed_branch_point B curve pk).value = pk.drop 1 ++
      List.replicate (2 * (B.curve curve).private_key_size - (pk.length - 1)) 0 := by
    simp only [uncompressed_branch_point, std_copy_zero_into_replicate, List.length_drop]
    rw [Nat.mul_comm]
  refine ⟨uncompressed_branch_point B curve pk, ?_, rfl, rfl, ?_, hvalue, rfl, ?_⟩
  · rw [ECPoint_public_key_uncompressed B curve false pk hfirst hfits, validation_step_false]
  · rw [hvalue]
    simp only [List.length_append, List.length_drop, List.length_replicate]
    omega
  · intro h
    exact uECC_write_of_length_eq _ _ (by simp only [List.length_replicate]; exact h)

/-- The short-key theorem at the four-byte input `[0x04, 9, 8, 7]`. -/
theorem short_uncompressed_key_construction_witness :
    ([0x04, 9, 8, 7] : List Byte).headD 0 = 0x04 ∧
    1 ≤ ([0x04, 9, 8, 7] : List Byte).length ∧
    ([0x04, 9, 8, 7] : List Byte).length
      < 2 * (toy_backend.curve ECCCURVE.secp256r1).private_key_size + 1 ∧
    ∃ p : ECPoint,
      ECPoint.ECPoint_public_key toy_backend [0x04, 9, 8, 7] ECCCURVE.secp256r1 false =
        ⟨.ok p, [uECC_Call.compress p.value]⟩ ∧
      p.is_infinity = false ∧
      p.curve = ECCCURVE.secp256r1 ∧
      p.value.length = 2 * (toy_backend.curve ECCCURVE.secp256r1).private_key_size ∧
      p.value = ([0x04, 9, 8, 7] : List Byte).drop 1 ++
        List.replicate (2 * (toy_backend.curve ECCCURVE.secp256r1).private_key_size
          - (([0x04, 9, 8, 7] : List Byte).length - 1)) 0 ∧
      p.value_compressed =
        uECC_write
          (List.replicate ((toy_backend.curve ECCCURVE.secp256r1).private_key_size + 1) 0)
          ((toy_backend.curve ECCCURVE.secp256r1).compress p.value) ∧
      (((toy_backend.curve ECCCURVE.secp256r1).compress p.value).length
          = (toy_backend.curve ECCCURVE.secp256r1).private_key_size + 1 →
        p.value_compressed = (toy_backend.curve ECCCURVE.secp256r1).compress p.value) :=
  ⟨by decide, by decide, by decide,
    short_uncompressed_key_construction toy_backend ECCCURVE.secp256r1 [0x04, 9, 8, 7]
      (by decide) (by decide) (by decide)⟩

/-- C20 (evaluation of the code at the infinity point): for every library,
curve and `validate`, construction from `[0x00]` yields a point `p` with
`is_infinity = true`, and `__deepcopy__` of `p` never yields an infinite
point: it re-parses the `2 * curve_size` zero bytes of `value_compressed`,
which is not the one-byte marker, so it throws the empty-key exception when
the curve size is 0 and otherwise yields a non-infinite point with an empty
`value_compressed`, whose compressed encoding is empty while that of `p` is
`[0x00]`. -/
theorem deepcopy_of_infinity_point (B : Backend) (curve : ECCCURVE) (validate : Bool) :
    ∃ p : ECPoint,
      (ECPoint.ECPoint_public_key B [0x00] curve validate).outcome = .ok p ∧
      p.is_infinity = true ∧
      (p.encode_point true).1 = [0x00] ∧
      (¬ ∃ q : ECPoint, (ECPoint.__deepcopy__ B p).outcome = .ok q ∧ q.is_infinity = true) ∧
      ECPoint.__deepcopy__ B p =
        (if (B.curve curve).private_key_size = 0 then
          ⟨.error (.exception ⟨"Public key has no data"⟩), []⟩
        else
          ⟨.ok { value := List.replicate ((B.curve curve).private_key_size * 2) 0,
                 value_compressed := [],
                 curve := curve,
                 _is_infinity := false }, []⟩) ∧
      (∀ q : ECPoint, (ECPoint.__deepcopy__ B p).outcome = .ok q →
        (q.encode_point true).1 = []) := by
  have hcopy : ECPoint.__deepcopy__ B
      { value := List.replicate ((B.curve curve).private_key_size * 2) 0,
        value_compressed := List.replicate ((B.curve curve).private_key_size * 2) 0,
        curve := curve,
        _is_infinity := true } =
      (if (B.curve curve).private_key_size = 0 then
        ⟨.error (.exception ⟨"Public key has no data"⟩), []⟩
      else
        ⟨.ok { value := List.replicate ((B.curve curve).private_key_size * 2) 0,
               value_compressed := [],
               curve := curve,
               _is_infinity := false }, []⟩) := by
    cases hsize : (B.curve curve).private_key_size with
    | zero => simp [ECPoint.__deepcopy__, ECPoint.ECPoint_public_key, hsize]
    | succ n =>
      simp [ECPoint.__deepcopy__, ECPoint.ECPoint_public_key, hsize, Nat.succ_mul,
        List.replicate_succ]
  refine ⟨_, by simp only [ECPoint.ECPoint_public_key]; rfl, ?_, ?_, ?_, ?_, ?_⟩
  · simp [ECPoint.is_infinity]
  · simp [ECPoint.encode_point]
  · rintro ⟨q, hq, hinf⟩
    rw [hcopy] at hq
    split at hq
    · simp at hq
    · injection hq with hq
      subst hq
      simp [ECPoint.is_infinity] at hinf
  · exact hcopy
  · intro q hq
    rw [hcopy] at hq
    split at hq
    · simp at hq
    · injection hq with hq
      subst hq
      simp [ECPoint.encode_point]

end neo3crypto
